import Mathlib

/-!
Shallow embedding of the WSBE WhatsApp listener (`src/wa-listener.ts`, the
revision carrying the LID→phone identity cache, `resolveToPhone`, the
connection-lifecycle handler, and 6-digit code filtering in the
`messages.upsert` handler).

Strings are modelled by Lean `String`; the JavaScript string operations used
by the source (`endsWith`, `split('@')[0]`, `trim`, the `\b(\d{6})\b` regex,
`replace(/@.*$/, '')`, truthiness of strings) are given explicit executable
models below.  The `Map<string,string>` identity cache is modelled as an
association list in insertion order with JavaScript `Map` semantics.
External I/O (pino logging, axios, the file system) is modelled by the data
the source hands to it: log severities, the forwarded payload, and the
session-directory contents.
-/

/-- Severities of the pino logger calls appearing in the source. -/
inductive Severity where
  | debug
  | info
  | warn
  | error
  deriving DecidableEq, Repr

/-- Model of JavaScript `s.endsWith(t)`: the character sequence of `t` is a
suffix of the character sequence of `s`. -/
def jsEndsWith (s t : String) : Bool :=
  decide (t.data <:+ s.data)

/-- Model of JavaScript `s.split('@')[0]`: the characters of `s` before the
first `'@'` (all of `s` when it has none). -/
def jidLocal (s : String) : String :=
  ⟨s.data.takeWhile (fun c => c ≠ '@')⟩

/-- JavaScript truthiness of an optional string field: present and non-empty. -/
def truthy : Option String → Bool
  | some s => !(s = "")
  | none => false

/-- Model of JavaScript `a || b` on two optional string fields (`||` falls
through on `undefined` and on the empty string). -/
def jsOrStr (a b : Option String) : Option String :=
  match a with
  | some s => if s = "" then b else some s
  | none => b

/-- JavaScript `WhiteSpace`/line-terminator characters removed by
`String.prototype.trim`. -/
def isJsWhitespace (c : Char) : Bool :=
  c = ' ' || c = '\t' || c = '\n' || c = '\r' ||
  c.toNat = 0x0B || c.toNat = 0x0C || c.toNat = 0xA0 ||
  c.toNat = 0xFEFF || c.toNat = 0x2028 || c.toNat = 0x2029

/-- Model of JavaScript `s.trim()`. -/
def jsTrim (s : String) : String :=
  ⟨((s.data.dropWhile isJsWhitespace).reverse.dropWhile isJsWhitespace).reverse⟩

/-- Word characters of the JavaScript regex class `\w` (ASCII letters, digits
and underscore), used by the `\b` word-boundary assertion. -/
def isWordChar (c : Char) : Bool :=
  c.isAlpha || c.isDigit || c = '_'

/-- A `\b` word boundary holds at a position whose preceding character (if
any) is not a word character and whose current character is a word character
(digits are word characters, so only the preceding side needs checking when
the position starts a digit run). -/
def boundaryBefore : Option Char → Bool
  | none => true
  | some c => !isWordChar c

/-- The list starts with exactly six digits followed by a `\b` boundary
(end of input or a non-word character). -/
def sixDigitsHere : List Char → Bool
  | d1 :: d2 :: d3 :: d4 :: d5 :: d6 :: rest =>
      d1.isDigit && d2.isDigit && d3.isDigit && d4.isDigit && d5.isDigit &&
      d6.isDigit &&
      (match rest with
       | [] => true
       | c :: _ => !isWordChar c)
  | _ => false

/-- Scan for a match of `\b(\d{6})\b` somewhere in the character list,
tracking the previous character for the left boundary. -/
def scanSixDigit : Option Char → List Char → Bool
  | _, [] => false
  | prev, c :: cs =>
      (boundaryBefore prev && sixDigitsHere (c :: cs)) || scanSixDigit (some c) cs

/-- Model of the truthiness of `text.match(/\b(\d{6})\b/)` in the
`messages.upsert` handler: the text contains a standalone, word-boundary
delimited run of exactly six digits. -/
def hasSixDigitCode (s : String) : Bool :=
  scanSixDigit none s.data

/-- JavaScript line terminators, which `.` in a regex does not match. -/
def isLineTerm (c : Char) : Bool :=
  c = '\n' || c = '\r' || c.toNat = 0x2028 || c.toNat = 0x2029

/-- Model of `phone.replace(/@.*$/, '')`: delete from the leftmost `'@'`
that has no line terminator after it (so that `.*$` can reach the end of the
input) to the end; when no such `'@'` exists the string is unchanged. -/
def dropFromAtSign : List Char → List Char
  | [] => []
  | c :: rest =>
      if c = '@' && !(rest.any isLineTerm) then [] else c :: dropFromAtSign rest

/-- The `cleanPhone` computation of the `messages.upsert` handler. -/
def cleanPhone (s : String) : String :=
  ⟨dropFromAtSign s.data⟩

/-- The identity cache `lidToPhoneMap : Map<string,string>`, as an
association list in `Map` insertion order. -/
abbrev Cache := List (String × String)

/-- JavaScript `Map.prototype.get` (first — and only — binding of the key). -/
def Cache.get : Cache → String → Option String
  | [], _ => none
  | (k', v) :: rest, k => if k' = k then some v else Cache.get rest k

/-- JavaScript `Map.prototype.has`. -/
def Cache.has (c : Cache) (k : String) : Bool :=
  (Cache.get c k).isSome

/-- JavaScript `Map.prototype.set`: overwrite in place when the key is
present, append otherwise. -/
def Cache.set : Cache → String → String → Cache
  | [], k, v => [(k, v)]
  | (k', v') :: rest, k, v =>
      if k' = k then (k', v) :: rest else (k', v') :: Cache.set rest k v

/-- The message key carried by a Baileys message (`msg.key`): the fields the
source reads are `remoteJid`, `remoteJidAlt` and `participant`. -/
structure MsgKey where
  remoteJid : Option String
  remoteJidAlt : Option String
  participant : Option String
  deriving DecidableEq, Repr

/-- Quoted-reply context (`contextInfo`); the source reads its
`participant` field. -/
structure ContextInfo where
  participant : Option String
  deriving DecidableEq, Repr

/-- An `extendedTextMessage`: body `text` and optional reply `contextInfo`. -/
structure ExtendedTextMessage where
  text : Option String
  contextInfo : Option ContextInfo
  deriving DecidableEq, Repr

/-- A `documentMessage`; the source reads its `caption`. -/
structure DocumentMessage where
  caption : Option String
  deriving DecidableEq, Repr

/-- The inner `message` of a `documentWithCaptionMessage`. -/
structure DocWithCaptionInner where
  documentMessage : Option DocumentMessage
  deriving DecidableEq, Repr

/-- A `documentWithCaptionMessage` wrapper. -/
structure DocumentWithCaptionMessage where
  message : Option DocWithCaptionInner
  deriving DecidableEq, Repr

/-- The `msg.message` content with the three body-text variants the source
consults. -/
structure MessageContent where
  conversation : Option String
  extendedTextMessage : Option ExtendedTextMessage
  documentWithCaptionMessage : Option DocumentWithCaptionMessage
  deriving DecidableEq, Repr

/-- An inbound message record (`msg`): key, optional content, and the
top-level `participant` fallback field. -/
structure Msg where
  key : MsgKey
  message : Option MessageContent
  participant : Option String
  deriving DecidableEq, Repr

/-- The optional chain `msg.message?.extendedTextMessage?.contextInfo?.participant`. -/
def quotedParticipant (msg : Msg) : Option String :=
  ((msg.message.bind MessageContent.extendedTextMessage).bind
      ExtendedTextMessage.contextInfo).bind ContextInfo.participant

/-- Result of one `resolveToPhone` call: the returned phone (or `none` for
the source's `null`), the identity cache after the call, and the severities
logged during the call. -/
structure ResolveOut where
  phone : Option String
  cache : Cache
  logs : List Severity
  deriving DecidableEq, Repr

/-- One fallback heuristic of the `@lid` branch of `resolveToPhone`:
`if (cand && cand.endsWith('@s.whatsapp.net')) { const phone = cand.split('@')[0]; if (phone) ... }`.
Returns the phone to record and return, or `none` to fall through to the
next heuristic. -/
def tryCandidate (cand : Option String) : Option String :=
  match cand with
  | none => none
  | some s =>
      if s = "" then none
      else if jsEndsWith s "@s.whatsapp.net" then
        let phone := jidLocal s
        if phone = "" then none else some phone
      else none

/-- Embedding of `resolveToPhone(jid, sock, msg)`.  The socket argument is
unused by the source body and omitted; the ambient `lidToPhoneMap` and the
`saveLidMapping()` write-through become the explicit `cache` input and the
cache component of the result. -/
def resolveToPhone (jid : String) (msg : Msg) (cache : Cache) : ResolveOut :=
  if jsEndsWith jid "@g.us" || jsEndsWith jid "@broadcast" then
    ⟨none, cache, [Severity.debug]⟩
  else if jsEndsWith jid "@s.whatsapp.net" then
    let phone := jidLocal jid
    if phone = "" then ⟨none, cache, []⟩
    else
      match quotedParticipant msg with
      | some q =>
          if !(q = "") && jsEndsWith q "@lid" then
            let quotedLid := jidLocal q
            if !(quotedLid = "") && !(phone = "") && !(Cache.has cache quotedLid) then
              ⟨some phone, Cache.set cache quotedLid phone, [Severity.info]⟩
            else ⟨some phone, cache, []⟩
          else ⟨some phone, cache, []⟩
      | none => ⟨some phone, cache, []⟩
  else if jsEndsWith jid "@lid" then
    let lid := jidLocal jid
    if lid = "" then ⟨none, cache, []⟩
    else if Cache.has cache lid then
      match Cache.get cache lid with
      | some phone =>
          if phone = "" then ⟨none, cache, []⟩
          else ⟨some phone, cache, [Severity.debug]⟩
      | none => ⟨none, cache, []⟩
    else
      match tryCandidate msg.key.remoteJidAlt with
      | some phone => ⟨some phone, Cache.set cache lid phone, [Severity.info]⟩
      | none =>
          match tryCandidate (jsOrStr msg.key.participant msg.participant) with
          | some phone => ⟨some phone, Cache.set cache lid phone, [Severity.info]⟩
          | none =>
              match tryCandidate (quotedParticipant msg) with
              | some phone => ⟨some phone, Cache.set cache lid phone, [Severity.info]⟩
              | none => ⟨some lid, cache, [Severity.error]⟩
  else ⟨none, cache, [Severity.warn]⟩

/-- The captioned-document leg of the body-text extraction chain:
`msg.message.documentWithCaptionMessage?.message?.documentMessage?.caption ?? ""`
together with the final `?? ""` default. -/
def extractCaption (m : MessageContent) : String :=
  match m.documentWithCaptionMessage with
  | some d =>
      match d.message with
      | some inner =>
          match inner.documentMessage with
          | some doc =>
              match doc.caption with
              | some cap => cap
              | none => ""
          | none => ""
      | none => ""
  | none => ""

/-- Body-text extraction of the `messages.upsert` handler:
`msg.message.conversation ?? msg.message.extendedTextMessage?.text ?? … ?? ""`
(`??` falls through only on an absent field, never on an empty string). -/
def extractText (m : MessageContent) : String :=
  match m.conversation with
  | some c => c
  | none =>
      match m.extendedTextMessage with
      | some ext =>
          match ext.text with
          | some t => t
          | none => extractCaption m
      | none => extractCaption m

/-- The extracted body text of a whole message record (empty when
`msg.message` is absent, in which case the pipeline has already skipped). -/
def extractTextOfMsg (msg : Msg) : String :=
  match msg.message with
  | some m => extractText m
  | none => ""

/-- The normalized payload handed to `axios.post` by the pipeline. -/
structure ForwardRequest where
  «from» : String
  body : String
  deriving DecidableEq, Repr

/-- Result of processing one message of a `messages.upsert` batch: the
forward request emitted (if any), the identity cache afterwards, and the
logged severities. -/
structure UpsertOut where
  req : Option ForwardRequest
  cache : Cache
  logs : List Severity
  deriving DecidableEq, Repr

/-- Embedding of the per-message body of the `messages.upsert` handler in
the code-filtering revision: guard on content and sender, resolve the
sender, extract and trim the text, require a six-digit code, strip any
domain tag from the phone and emit the forward payload. -/
def processUpsertMessage (msg : Msg) (cache : Cache) : UpsertOut :=
  match msg.message with
  | none => ⟨none, cache, []⟩
  | some content =>
      match msg.key.remoteJid with
      | none => ⟨none, cache, []⟩
      | some rawJid =>
          if rawJid = "" then ⟨none, cache, []⟩
          else
            let r := resolveToPhone rawJid msg cache
            match r.phone with
            | none => ⟨none, r.cache, r.logs⟩
            | some phone =>
                if phone = "" then ⟨none, r.cache, r.logs⟩
                else
                  let text := extractText content
                  if jsTrim text = "" then ⟨none, r.cache, r.logs⟩
                  else if !hasSixDigitCode text then
                    ⟨none, r.cache, r.logs ++ [Severity.debug]⟩
                  else
                    ⟨some ⟨cleanPhone phone, jsTrim text⟩, r.cache,
                      r.logs ++ [Severity.info]⟩

/-- Persisting the cache (`saveLidMapping`): `Object.fromEntries` of a `Map`
(whose keys are pairwise distinct) lists its entries in insertion order, and
`JSON.stringify`/`writeFileSync` store exactly those entries; the persisted
artifact is therefore modelled as the entry list itself, the JSON text
encoding being the external storage boundary. -/
def saveLidMapping (c : Cache) : List (String × String) :=
  c

/-- Loading the persisted mapping at startup: `JSON.parse` + `Object.entries`
recover the stored entry list and `forEach(([lid, phone]) => map.set(...))`
replays it into the (empty at startup) cache. -/
def loadLidMapping (entries : List (String × String)) : Cache :=
  entries.foldl (fun m kv => Cache.set m kv.1 kv.2) []

/-- The keys of a `Map` are pairwise distinct — the representation invariant
of every cache state reachable through `Map` operations. -/
def keysNodup (c : Cache) : Prop :=
  (c.map Prod.fst).Nodup

instance (c : Cache) : Decidable (keysNodup c) := by
  unfold keysNodup; infer_instance

/-- Baileys `DisconnectReason.loggedOut`. -/
def DisconnectReason.loggedOut : Int := 401

/-- Shape of `lastDisconnect.error`: the status code is surfaced
inconsistently, so the handler probes `error?.output?.statusCode`,
`error?.status` and `error?.code` in that order. -/
structure BoomOutput where
  statusCode : Option Int
  deriving DecidableEq, Repr

/-- A disconnect error with the three possible status-code carriers. -/
structure DisconnectError where
  output : Option BoomOutput
  status : Option Int
  code : Option Int
  deriving DecidableEq, Repr

/-- The chain `error?.output?.statusCode ?? error?.status ?? error?.code`. -/
def extractStatusCode (e : Option DisconnectError) : Option Int :=
  match e with
  | none => none
  | some err =>
      match err.output.bind BoomOutput.statusCode with
      | some sc => some sc
      | none =>
          match err.status with
          | some st => some st
          | none => err.code

/-- A `connection.update` event payload. -/
structure ConnUpdate where
  connection : Option String
  lastDisconnect : Option DisconnectError
  qr : Option String
  deriving DecidableEq, Repr

/-- Name of the identity-cache file; the source computes
`mapFile = sessionDir + "/lid-phone-map.json"`, i.e. the file lives inside
the session directory. -/
def mapFileName : String := "lid-phone-map.json"

/-- Contents of the session directory (`sessionDir`): file name ↦ file
contents.  It holds both the transport's credential files and, per
`mapFile`, the persisted identity cache. -/
structure Disk where
  sessionFiles : List (String × String)
  deriving DecidableEq, Repr

/-- Look a file up in the session directory. -/
def Disk.lookup (d : Disk) (name : String) : Option String :=
  Cache.get d.sessionFiles name

/-- Result of one `connection.update` callback: the session directory
afterwards, the restart that was scheduled (delay in milliseconds together
with the directory contents `useMultiFileAuthState` will read when `start()`
runs), and the logged severities. -/
structure UpdateOut where
  disk : Disk
  restart : Option (Nat × List (String × String))
  logs : List Severity
  deriving DecidableEq, Repr

/-- Embedding of the `connection.update` handler: QR logging, the open log,
and on close the status-code extraction followed by either the logged-out
branch (`fs.rmSync(sessionDir, recursive+force)` then `mkdirSync` then an
immediate `start()`, which reloads auth state from the now-empty directory)
or the generic branch (`setTimeout(() => start(), 3000)` with the directory
untouched, so `start()` reloads the same persisted credentials). -/
def handleConnectionUpdate (u : ConnUpdate) (d : Disk) : UpdateOut :=
  let qrLogs : List Severity := if truthy u.qr then [Severity.info] else []
  let openLogs : List Severity :=
    if u.connection = some "open" then [Severity.info] else []
  if u.connection = some "close" then
    let statusCode := extractStatusCode u.lastDisconnect
    if statusCode = some DisconnectReason.loggedOut then
      let emptied : Disk := ⟨[]⟩
      ⟨emptied, some (0, emptied.sessionFiles),
        qrLogs ++ openLogs ++ [Severity.warn, Severity.error]⟩
    else
      ⟨d, some (3000, d.sessionFiles), qrLogs ++ openLogs ++ [Severity.warn]⟩
  else
    ⟨d, none, qrLogs ++ openLogs⟩

/-! Helper lemmas about the string and cache models. -/

theorem jsEndsWith_iff {s t : String} : jsEndsWith s t = true ↔ t.data <:+ s.data := by
  simp [jsEndsWith]

theorem jsEndsWith_false_of {jid t u : String} (h : jsEndsWith jid t = true)
    (h1 : ¬t.data <:+ u.data) (h2 : ¬u.data <:+ t.data) :
    jsEndsWith jid u = false := by
  cases hu : jsEndsWith jid u with
  | false => rfl
  | true =>
      rcases List.suffix_or_suffix_of_suffix (jsEndsWith_iff.mp h) (jsEndsWith_iff.mp hu) with
        hh | hh
      · exact absurd hh h1
      · exact absurd hh h2

theorem lid_not_gus {jid : String} (h : jsEndsWith jid "@lid" = true) :
    jsEndsWith jid "@g.us" = false :=
  jsEndsWith_false_of h (by decide) (by decide)

theorem lid_not_broadcast {jid : String} (h : jsEndsWith jid "@lid" = true) :
    jsEndsWith jid "@broadcast" = false :=
  jsEndsWith_false_of h (by decide) (by decide)

theorem lid_not_swn {jid : String} (h : jsEndsWith jid "@lid" = true) :
    jsEndsWith jid "@s.whatsapp.net" = false :=
  jsEndsWith_false_of h (by decide) (by decide)

theorem Cache.get_set_ne (c : Cache) {k' k : String} (v : String) (h : k' ≠ k) :
    Cache.get (Cache.set c k' v) k = Cache.get c k := by
  induction c with
  | nil => simp [Cache.set, Cache.get, h]
  | cons hd tl ih =>
      obtain ⟨a, b⟩ := hd
      by_cases ha : a = k'
      · subst ha
        simp [Cache.set, Cache.get, h]
      · simp [Cache.set, Cache.get, ha, ih]

theorem Cache.get_set_of_get_none {c : Cache} {k' : String} (p : String)
    (hf : Cache.get c k' = none) {k v : String} (h : Cache.get c k = some v) :
    Cache.get (Cache.set c k' p) k = some v := by
  have hne : k' ≠ k := by
    rintro rfl
    rw [h] at hf
    cases hf
  rw [Cache.get_set_ne c p hne, h]

theorem Cache.get_eq_none_of_has_false {c : Cache} {k : String}
    (h : Cache.has c k = false) : Cache.get c k = none := by
  unfold Cache.has at h
  cases hg : Cache.get c k with
  | none => rfl
  | some v => rw [hg] at h; simp at h

theorem tryCandidate_ne_empty {o : Option String} {p : String}
    (h : tryCandidate o = some p) : p ≠ "" := by
  intro hp
  subst hp
  unfold tryCandidate at h
  repeat' split at h
  all_goals simp_all

/-- Any entry already in the cache survives a `resolveToPhone` call with the
same value: every `Map.set` in the source is guarded by a miss check. -/
theorem resolveToPhone_preserves_entry (jid : String) (msg : Msg) (cache : Cache)
    {k v : String} (h : Cache.get cache k = some v) :
    Cache.get (resolveToPhone jid msg cache).cache k = some v := by
  unfold resolveToPhone
  dsimp only
  repeat' split
  all_goals simp only []
  all_goals
    first
    | exact h
    | exact Cache.get_set_of_get_none _
        (Cache.get_eq_none_of_has_false
          (by simp_all [Bool.and_eq_true, Bool.not_eq_true', Bool.not_eq_true])) h

/-- A message record with every optional field absent (used to instantiate
universally quantified theorems at a concrete input). -/
def noFieldsMsg : Msg :=
  ⟨⟨none, none, none⟩, none, none⟩

/-- C3: for every raw identifier carrying the group or broadcast tag,
`resolveToPhone` returns Skip (`null`), regardless of every other field of
the message and of the cache contents. -/
theorem c3_group_broadcast_skip (jid : String) (msg : Msg) (cache : Cache)
    (h : jsEndsWith jid "@g.us" = true ∨ jsEndsWith jid "@broadcast" = true) :
    (resolveToPhone jid msg cache).phone = none := by
  unfold resolveToPhone
  have hb : (jsEndsWith jid "@g.us" || jsEndsWith jid "@broadcast") = true := by
    rcases h with h | h <;> simp [h]
  simp [hb]

/-- C3 witness: a concrete group-tagged identifier is skipped. -/
theorem c3_group_broadcast_skip_witness :
    (resolveToPhone "12036304@g.us" noFieldsMsg [("x", "y")]).phone = none :=
  c3_group_broadcast_skip "12036304@g.us" noFieldsMsg [("x", "y")]
    (Or.inl (by decide))

/-- C10: if the portion of the raw identifier before the `'@'` domain tag is
empty, `resolveToPhone` returns Skip rather than an address; and
`resolveToPhone` never returns the empty string as an address. -/
theorem c10_no_empty_address :
    (∀ jid msg cache, jidLocal jid = "" →
        (resolveToPhone jid msg cache).phone = none) ∧
    (∀ jid msg cache, (resolveToPhone jid msg cache).phone ≠ some "") := by
  constructor
  · intro jid msg cache hloc
    unfold resolveToPhone
    dsimp only
    repeat' split
    all_goals simp_all
  · intro jid msg cache
    unfold resolveToPhone
    dsimp only
    repeat' split
    all_goals dsimp only
    all_goals simp only [ne_eq, Option.some.injEq]
    all_goals
      first
      | (simp_all; done)
      | (rename_i heq
         exact tryCandidate_ne_empty heq)

/-- C10 witness: the bare alias tag `"@lid"` is skipped. -/
theorem c10_no_empty_address_witness :
    (resolveToPhone "@lid" noFieldsMsg []).phone = none :=
  c10_no_empty_address.1 "@lid" noFieldsMsg [] (by decide)

/-- A message whose fallback field would resolve the alias to a different
address (to witness that the cache still wins). -/
def c1Msg : Msg :=
  ⟨⟨some "123@lid", some "999@s.whatsapp.net", none⟩, none, none⟩

/-- C1: once the identity cache maps alias token A to canonical address C
(the state left behind whenever `resolveToPhone` has returned C for A via
any heuristic), every subsequent `resolveToPhone` call on an alias-tagged
identifier with token A returns C whatever the message's fallback fields
hold, and no call ever overwrites an existing cache entry with a different
value. -/
theorem c1_first_resolution_wins :
    (∀ jid msg cache A C, jsEndsWith jid "@lid" = true → jidLocal jid = A →
        A ≠ "" → Cache.get cache A = some C → C ≠ "" →
        (resolveToPhone jid msg cache).phone = some C ∧
        (resolveToPhone jid msg cache).cache = cache) ∧
    (∀ jid msg cache k v, Cache.get cache k = some v →
        Cache.get (resolveToPhone jid msg cache).cache k = some v) := by
  constructor
  · intro jid msg cache A C hlid hloc hA hget hC
    have h1 := lid_not_gus hlid
    have h2 := lid_not_broadcast hlid
    have h3 := lid_not_swn hlid
    subst hloc
    have hhas : Cache.has cache (jidLocal jid) = true := by
      unfold Cache.has
      rw [hget]
      rfl
    unfold resolveToPhone
    dsimp only
    simp [h1, h2, h3, hlid, hA, hhas, hget, hC]
  · intro jid msg cache k v h
    exact resolveToPhone_preserves_entry jid msg cache h

/-- C1 witness: with `123 → 555` cached, the alias resolves to `555` even
though the message's `remoteJidAlt` points at `999`, and the cache is left
unchanged. -/
theorem c1_first_resolution_wins_witness :
    (resolveToPhone "123@lid" c1Msg [("123", "555")]).phone = some "555" ∧
    (resolveToPhone "123@lid" c1Msg [("123", "555")]).cache = [("123", "555")] :=
  c1_first_resolution_wins.1 "123@lid" c1Msg [("123", "555")] "123" "555"
    (by decide) (by decide) (by decide) (by decide) (by decide)

/-- The C2 message: alias sender with `remoteJidAlt` carrying the canonical
address. -/
def c2Msg : Msg :=
  ⟨⟨some "123456@lid", some "5511999@s.whatsapp.net", none⟩,
    some ⟨some "hi", none, none⟩, none⟩

/-- C2: on a cache miss for an alias-tagged identifier, `resolveToPhone`
tries `remoteJidAlt`, then the participant field (`msg.key.participant ||
msg.participant`), then the quoted-context participant, in that order; the
first canonically tagged candidate with a non-empty numeric portion wins, is
written through to the cache, and is returned.  Concretely, alias
`"123456@lid"` with `remoteJidAlt = "5511999@s.whatsapp.net"` and no prior
entry resolves to `"5511999"`, and the cache afterwards maps
`123456 → 5511999`. -/
theorem c2_fallback_order :
    (∀ jid msg cache p, jsEndsWith jid "@lid" = true → jidLocal jid ≠ "" →
        Cache.has cache (jidLocal jid) = false →
        tryCandidate msg.key.remoteJidAlt = some p →
        resolveToPhone jid msg cache =
          ⟨some p, Cache.set cache (jidLocal jid) p, [Severity.info]⟩) ∧
    (∀ jid msg cache p, jsEndsWith jid "@lid" = true → jidLocal jid ≠ "" →
        Cache.has cache (jidLocal jid) = false →
        tryCandidate msg.key.remoteJidAlt = none →
        tryCandidate (jsOrStr msg.key.participant msg.participant) = some p →
        resolveToPhone jid msg cache =
          ⟨some p, Cache.set cache (jidLocal jid) p, [Severity.info]⟩) ∧
    (∀ jid msg cache p, jsEndsWith jid "@lid" = true → jidLocal jid ≠ "" →
        Cache.has cache (jidLocal jid) = false →
        tryCandidate msg.key.remoteJidAlt = none →
        tryCandidate (jsOrStr msg.key.participant msg.participant) = none →
        tryCandidate (quotedParticipant msg) = some p →
        resolveToPhone jid msg cache =
          ⟨some p, Cache.set cache (jidLocal jid) p, [Severity.info]⟩) ∧
    (resolveToPhone "123456@lid" c2Msg [] =
        ⟨some "5511999", [("123456", "5511999")], [Severity.info]⟩ ∧
      Cache.get (resolveToPhone "123456@lid" c2Msg []).cache "123456" =
        some "5511999") := by
  refine ⟨?_, ?_, ?_, by decide⟩
  · intro jid msg cache p hlid hloc hmiss hA
    have h1 := lid_not_gus hlid
    have h2 := lid_not_broadcast hlid
    have h3 := lid_not_swn hlid
    unfold resolveToPhone
    dsimp only
    simp [h1, h2, h3, hlid, hloc, hmiss, hA]
  · intro jid msg cache p hlid hloc hmiss hA hB
    have h1 := lid_not_gus hlid
    have h2 := lid_not_broadcast hlid
    have h3 := lid_not_swn hlid
    unfold resolveToPhone
    dsimp only
    simp [h1, h2, h3, hlid, hloc, hmiss, hA, hB]
  · intro jid msg cache p hlid hloc hmiss hA hB hC
    have h1 := lid_not_gus hlid
    have h2 := lid_not_broadcast hlid
    have h3 := lid_not_swn hlid
    unfold resolveToPhone
    dsimp only
    simp [h1, h2, h3, hlid, hloc, hmiss, hA, hB, hC]

/-- C2 witness: the first heuristic applied to a concrete cache-missing
alias message. -/
theorem c2_fallback_order_witness :
    resolveToPhone "123456@lid" c2Msg [] =
      ⟨some "5511999", Cache.set [] (jidLocal "123456@lid") "5511999",
        [Severity.info]⟩ :=
  c2_fallback_order.1 "123456@lid" c2Msg [] "5511999"
    (by decide) (by decide) (by decide) (by decide)

/-- C6: when the cache misses and all three fallback heuristics fail for an
alias-tagged identifier, `resolveToPhone` logs at error severity and returns
the alias token itself as a last-resort address rather than Skip, leaving
the cache unchanged. -/
theorem c6_unresolved_alias_degraded (jid : String) (msg : Msg) (cache : Cache)
    (hlid : jsEndsWith jid "@lid" = true) (hloc : jidLocal jid ≠ "")
    (hmiss : Cache.has cache (jidLocal jid) = false)
    (hA : tryCandidate msg.key.remoteJidAlt = none)
    (hB : tryCandidate (jsOrStr msg.key.participant msg.participant) = none)
    (hC : tryCandidate (quotedParticipant msg) = none) :
    resolveToPhone jid msg cache =
      ⟨some (jidLocal jid), cache, [Severity.error]⟩ := by
  have h1 := lid_not_gus hlid
  have h2 := lid_not_broadcast hlid
  have h3 := lid_not_swn hlid
  unfold resolveToPhone
  dsimp only
  simp [h1, h2, h3, hlid, hloc, hmiss, hA, hB, hC]

/-- C6 witness: an alias message with no usable fallback fields is returned
as its own (degraded) address with an error log. -/
theorem c6_unresolved_alias_degraded_witness :
    resolveToPhone "987654@lid" noFieldsMsg [] =
      ⟨some (jidLocal "987654@lid"), [], [Severity.error]⟩ :=
  c6_unresolved_alias_degraded "987654@lid" noFieldsMsg []
    (by decide) (by decide) (by decide) (by decide) (by decide) (by decide)

theorem Cache.set_fresh {c : Cache} {k : String} (v : String)
    (h : Cache.get c k = none) : Cache.set c k v = c ++ [(k, v)] := by
  induction c with
  | nil => rfl
  | cons hd tl ih =>
      obtain ⟨a, b⟩ := hd
      unfold Cache.get at h
      by_cases ha : a = k
      · rw [if_pos ha] at h
        cases h
      · rw [if_neg ha] at h
        unfold Cache.set
        rw [if_neg ha, ih h]
        simp

theorem Cache.get_append_left_none {c : Cache} {k : String}
    (h : Cache.get c k = none) (c' : Cache) :
    Cache.get (c ++ c') k = Cache.get c' k := by
  induction c with
  | nil => rfl
  | cons hd tl ih =>
      obtain ⟨a, b⟩ := hd
      unfold Cache.get at h
      by_cases ha : a = k
      · rw [if_pos ha] at h
        cases h
      · rw [if_neg ha] at h
        simp only [List.cons_append, Cache.get, ha, if_false]
        exact ih h

theorem loadFold_eq_append (entries : List (String × String)) :
    ∀ acc : Cache, (entries.map Prod.fst).Nodup →
      (∀ kk, kk ∈ entries.map Prod.fst → Cache.get acc kk = none) →
      entries.foldl (fun m kv => Cache.set m kv.1 kv.2) acc = acc ++ entries := by
  induction entries with
  | nil =>
      intro acc _ _
      simp
  | cons hd tl ih =>
      intro acc hnd hfresh
      obtain ⟨k, v⟩ := hd
      simp only [List.foldl_cons]
      rw [Cache.set_fresh v (hfresh k (by simp))]
      have hnd' : (tl.map Prod.fst).Nodup := by
        simpa using (List.nodup_cons.mp (by simpa using hnd)).2
      have hknotin : k ∉ tl.map Prod.fst :=
        (List.nodup_cons.mp (by simpa using hnd)).1
      rw [ih (acc ++ [(k, v)]) hnd' ?fresh]
      · simp
      case fresh =>
        intro kk hkk
        rw [Cache.get_append_left_none (hfresh kk (by simp [hkk])) [(k, v)]]
        have hne : k ≠ kk := by
          rintro rfl
          exact hknotin hkk
        unfold Cache.get
        rw [if_neg hne]
        rfl

/-- C7: for every reachable state of the identity cache (whose keys, being
`Map` keys, are pairwise distinct), persisting it with `saveLidMapping` and
reloading the stored entries reproduces the identical alias→address
mapping. -/
theorem c7_save_load_roundtrip (c : Cache) (h : keysNodup c) :
    loadLidMapping (saveLidMapping c) = c := by
  unfold loadLidMapping saveLidMapping
  rw [loadFold_eq_append c [] h (fun kk _ => rfl)]
  simp

/-- C7 witness: a concrete two-entry mapping survives the round trip. -/
theorem c7_save_load_roundtrip_witness :
    loadLidMapping (saveLidMapping [("123456", "5511999"), ("777", "888")]) =
      [("123456", "5511999"), ("777", "888")] :=
  c7_save_load_roundtrip [("123456", "5511999"), ("777", "888")] (by decide)

/-- The concrete logout close event used for C4: a close update whose error
carries the logged-out status code in its Boom output. -/
def c4Update : ConnUpdate :=
  ⟨some "close", some ⟨some ⟨some 401⟩, none, none⟩, none⟩

/-- A session directory holding a credential file and the persisted
identity-cache file. -/
def c4Disk : Disk :=
  ⟨[("creds.json", "cred-bytes"), ("lid-phone-map.json", "map-bytes")]⟩

/-- C4 counterexample: the persisted identity-cache file lives inside the
session directory, so the recursive removal performed by the logged-out
branch deletes it unconditionally — the handler takes no operator choice and
the cache file present before the logout close is gone afterwards,
contradicting the claim that identity-cache invalidation on logout is
optional rather than unconditional. -/
theorem c4_counterexample :
    c4Disk.lookup mapFileName = some "map-bytes" ∧
    (handleConnectionUpdate c4Update c4Disk).disk.lookup mapFileName = none := by
  decide

/-- C4 (amended): on a close with the logged-out status code the handler
empties the session directory — persisted credentials and the persisted
identity-cache file alike, unconditionally — and immediately re-enters
`Connecting` by a `start()` that reads empty auth state, with no stale
credential file remaining. -/
theorem c4_logout_full_reset (u : ConnUpdate) (d : Disk)
    (hc : u.connection = some "close")
    (hs : extractStatusCode u.lastDisconnect = some DisconnectReason.loggedOut) :
    (handleConnectionUpdate u d).disk.sessionFiles = [] ∧
    (handleConnectionUpdate u d).restart = some (0, []) ∧
    (handleConnectionUpdate u d).disk.lookup mapFileName = none := by
  unfold handleConnectionUpdate
  simp [hc, hs, Disk.lookup, Cache.get]

/-- C4 witness: the amended reset behaviour on the concrete logout close. -/
theorem c4_logout_full_reset_witness :
    (handleConnectionUpdate c4Update c4Disk).disk.sessionFiles = [] ∧
    (handleConnectionUpdate c4Update c4Disk).restart = some (0, []) ∧
    (handleConnectionUpdate c4Update c4Disk).disk.lookup mapFileName = none :=
  c4_logout_full_reset c4Update c4Disk (by decide) (by decide)

/-- C5: on a close with any status code other than logged-out, the handler
schedules a reconnect after the fixed 3000 ms backoff, the session directory
is unchanged, and the restarted `start()` reads the same persisted
credentials as before closure. -/
theorem c5_nonlogout_reconnect (u : ConnUpdate) (d : Disk)
    (hc : u.connection = some "close")
    (hs : extractStatusCode u.lastDisconnect ≠ some DisconnectReason.loggedOut) :
    (handleConnectionUpdate u d).disk = d ∧
    (handleConnectionUpdate u d).restart = some (3000, d.sessionFiles) := by
  unfold handleConnectionUpdate
  simp [hc, hs]

/-- C5 witness: a connection-replaced close (status 440) keeps the
credential files and schedules the delayed reconnect from them. -/
theorem c5_nonlogout_reconnect_witness :
    (handleConnectionUpdate ⟨some "close", some ⟨some ⟨some 440⟩, none, none⟩, none⟩
        ⟨[("creds.json", "cred-bytes")]⟩).disk = ⟨[("creds.json", "cred-bytes")]⟩ ∧
    (handleConnectionUpdate ⟨some "close", some ⟨some ⟨some 440⟩, none, none⟩, none⟩
        ⟨[("creds.json", "cred-bytes")]⟩).restart =
      some (3000, [("creds.json", "cred-bytes")]) :=
  c5_nonlogout_reconnect ⟨some "close", some ⟨some ⟨some 440⟩, none, none⟩, none⟩
    ⟨[("creds.json", "cred-bytes")]⟩ (by decide) (by decide)

/-- The C8 message: direct canonical sender with a verification-code body. -/
def c8Msg : Msg :=
  ⟨⟨some "5511999@s.whatsapp.net", none, none⟩,
    some ⟨some "Your code is 482913, expires soon", none, none⟩, none⟩

/-- C8: with code filtering enabled, the concrete inbound message
`"Your code is 482913, expires soon"` from direct canonical sender
`5511999@s.whatsapp.net` yields exactly the forward payload
`from = "5511999"`, `body = "Your code is 482913, expires soon"`; and any
message whose extracted text contains no standalone word-boundary-delimited
six-digit token emits no forward request. -/
theorem c8_end_to_end :
    (processUpsertMessage c8Msg [] =
        ⟨some ⟨"5511999", "Your code is 482913, expires soon"⟩, [],
          [Severity.info]⟩) ∧
    (∀ msg cache, hasSixDigitCode (extractTextOfMsg msg) = false →
        (processUpsertMessage msg cache).req = none) := by
  constructor
  · decide
  · intro msg cache h
    unfold processUpsertMessage
    dsimp only
    repeat' split
    all_goals simp only []
    all_goals
      first
      | rfl
      | (exfalso
         simp_all [extractTextOfMsg])

/-- C8 witness: a message without a six-digit token is not forwarded. -/
theorem c8_end_to_end_witness :
    (processUpsertMessage
        ⟨⟨some "5511999@s.whatsapp.net", none, none⟩,
          some ⟨some "hello there", none, none⟩, none⟩ []).req = none :=
  c8_end_to_end.2
    ⟨⟨some "5511999@s.whatsapp.net", none, none⟩,
      some ⟨some "hello there", none, none⟩, none⟩ [] (by decide)

/-- C9: body-text extraction takes the first non-absent of plain
`conversation`, extended-text body, and captioned-document caption, in that
priority order, yielding `""` when all are absent; a present-but-empty field
is selected and does not fall through to a later one. -/
theorem c9_text_extraction_priority :
    (∀ (m : MessageContent) (c : String), m.conversation = some c →
        extractText m = c) ∧
    (∀ (m : MessageContent) (t : String), m.conversation = none →
        m.extendedTextMessage.bind ExtendedTextMessage.text = some t →
        extractText m = t) ∧
    (∀ (m : MessageContent) (cap : String), m.conversation = none →
        m.extendedTextMessage.bind ExtendedTextMessage.text = none →
        ((m.documentWithCaptionMessage.bind DocumentWithCaptionMessage.message).bind
            DocWithCaptionInner.documentMessage).bind DocumentMessage.caption =
          some cap →
        extractText m = cap) ∧
    (∀ m : MessageContent, m.conversation = none →
        m.extendedTextMessage.bind ExtendedTextMessage.text = none →
        ((m.documentWithCaptionMessage.bind DocumentWithCaptionMessage.message).bind
            DocWithCaptionInner.documentMessage).bind DocumentMessage.caption =
          none →
        extractText m = "") := by
  refine ⟨?_, ?_, ?_, ?_⟩
  · intro m c hc
    unfold extractText
    rw [hc]
  · intro m t hc ht
    obtain ⟨conv, ext, doc⟩ := m
    cases ext with
    | none => simp at ht
    | some e =>
        cases he : e.text with
        | none => simp [he] at ht
        | some t' =>
            simp [he] at ht
            subst hc
            unfold extractText
            obtain ⟨etext, ectx⟩ := e
            simp only at he
            subst he
            simpa using ht
  · intro m cap hc ht hcap
    obtain ⟨conv, ext, doc⟩ := m
    subst hc
    unfold extractText
    have hcaption : extractCaption ⟨none, ext, doc⟩ = cap := by
      unfold extractCaption
      cases doc with
      | none => simp at hcap
      | some d =>
          cases hd : d.message with
          | none => simp [hd] at hcap
          | some inner =>
              cases hi : inner.documentMessage with
              | none => simp [hd, hi] at hcap
              | some dm =>
                  cases hcp : dm.caption with
                  | none => simp [hd, hi, hcp] at hcap
                  | some c' =>
                      simp [hd, hi, hcp] at hcap
                      simp [hd, hi, hcp, hcap]
    cases ext with
    | none => exact hcaption
    | some e =>
        cases he : e.text with
        | none =>
            obtain ⟨etext, ectx⟩ := e
            simp only at he
            subst he
            exact hcaption
        | some t' => simp [he] at ht
  · intro m hc ht hcap
    obtain ⟨conv, ext, doc⟩ := m
    subst hc
    unfold extractText
    have hcaption : extractCaption ⟨none, ext, doc⟩ = "" := by
      unfold extractCaption
      cases doc with
      | none => rfl
      | some d =>
          cases hd : d.message with
          | none => simp [hd]
          | some inner =>
              cases hi : inner.documentMessage with
              | none => simp [hd, hi]
              | some dm =>
                  cases hcp : dm.caption with
                  | none => simp [hd, hi, hcp]
                  | some c' => simp [hd, hi, hcp] at hcap
    cases ext with
    | none => exact hcaption
    | some e =>
        cases he : e.text with
        | none =>
            obtain ⟨etext, ectx⟩ := e
            simp only at he
            subst he
            exact hcaption
        | some t' => simp [he] at ht

/-- C9 witness: a present-but-empty `conversation` is selected even though
an extended-text body is also present. -/
theorem c9_text_extraction_priority_witness :
    extractText ⟨some "", some ⟨some "fallback body", none⟩, none⟩ = "" :=
  c9_text_extraction_priority.1 ⟨some "", some ⟨some "fallback body", none⟩, none⟩
    "" rfl
